import Mathlib

/-!
Verification of the cymbal dual-gimbal controllers.

A shallow embedding of the two motion controllers of the repository:

* `Storm32` — the serial camera-gimbal driver
  (`airborne_gimbal/camera_gimbal/storm32_controller.py`): connection
  state, frame encoding (angle / speed / status request), status
  decoding, and the motion operations.
* `Spotlight` — the PWM spotlight-gimbal driver
  (`airborne_gimbal/spotlight_gimbal/servo_controller.py`): the
  angle/speed to pulse-width mapping, the position/speed commands, and
  the stabilization step.

Real-valued angles and speeds are modelled as rationals (`ℚ`); Python's
`int()` conversion is `ratTrunc` (truncation toward zero); Python's
`int.to_bytes(2, "little", signed=True)` is `toBytesLE2Signed`, which is
`none` exactly when the integer is outside the signed 16-bit range (the
`OverflowError` case).  Hardware effects are modelled explicitly: the
serial driver accumulates the list of frames written to the transport,
the spotlight driver returns the list of pulse widths written to the PWM
channels by each call.
-/

namespace Cymbal

/-- Truncation toward zero on rationals: Python's `int(x)` conversion. -/
def ratTrunc (q : ℚ) : ℤ :=
  if 0 ≤ q then ⌊q⌋ else ⌈q⌉

theorem ratTrunc_le_of_le {x : ℚ} {n : ℤ} (h : x ≤ (n : ℚ)) : ratTrunc x ≤ n := by
  unfold ratTrunc
  split
  · exact_mod_cast (Int.floor_mono h).trans_eq (Int.floor_intCast n)
  · exact Int.ceil_le.mpr h

theorem le_ratTrunc_of_le {x : ℚ} {n : ℤ} (h : (n : ℚ) ≤ x) : n ≤ ratTrunc x := by
  unfold ratTrunc
  split
  · exact Int.le_floor.mpr h
  · exact ((Int.ceil_intCast (α := ℚ) n).symm.trans_le (Int.ceil_mono h))

/-- Python's `n.to_bytes(2, "little", signed=True)`: two's-complement
little-endian encoding; `none` models the `OverflowError` raised when
`n` is outside the signed 16-bit range. -/
def toBytesLE2Signed (n : ℤ) : Option (List ℕ) :=
  if -32768 ≤ n ∧ n < 32768 then
    some [(n % 65536).toNat % 256, (n % 65536).toNat / 256]
  else none

/-- Decoding of a little-endian signed 16-bit field (inverse direction of
the wire format of §6 of the specification). -/
def decodeInt16LE (lo hi : ℕ) : ℤ :=
  if lo + 256 * hi < 32768 then ((lo + 256 * hi : ℕ) : ℤ)
  else ((lo + 256 * hi : ℕ) : ℤ) - 65536

theorem toBytesLE2Signed_decode (n : ℤ) (h1 : -32768 ≤ n) (h2 : n < 32768) :
    ∃ lo hi : ℕ, toBytesLE2Signed n = some [lo, hi] ∧ decodeInt16LE lo hi = n := by
  refine ⟨(n % 65536).toNat % 256, (n % 65536).toNat / 256, ?_, ?_⟩
  · unfold toBytesLE2Signed
    rw [if_pos ⟨h1, h2⟩]
  · unfold decodeInt16LE
    split <;> omega

end Cymbal

namespace Cymbal.Storm32

/-- State of the serial driver: the connection flag together with the
frames written to the serial transport so far (the transport model). -/
structure Storm32State where
  connected : Bool
  written : List (List ℕ)
deriving DecidableEq

/-- The fixed-shape status record decoded from a serial reply. -/
structure StatusReport where
  connected : Bool
  pitch : ℤ
  roll : ℤ
  yaw : ℤ
  voltage : ℚ
  status : String
deriving DecidableEq

/-- `Storm32Controller._build_angle_command`: header `0xFA 0x0E`, then
pitch, roll, yaw each scaled ×100, truncated to an integer and encoded
as a little-endian signed 16-bit field. -/
def build_angle_command (pitch roll yaw : ℚ) : Option (List ℕ) := do
  let pb ← toBytesLE2Signed (ratTrunc (pitch * 100))
  let rb ← toBytesLE2Signed (ratTrunc (roll * 100))
  let yb ← toBytesLE2Signed (ratTrunc (yaw * 100))
  return [0xFA, 0x0E] ++ pb ++ rb ++ yb

/-- `Storm32Controller._build_speed_command`: header `0xFA 0x0F`, then
the three speeds scaled ×10, truncated and encoded as little-endian
signed 16-bit fields. -/
def build_speed_command (pitch_speed roll_speed yaw_speed : ℚ) : Option (List ℕ) := do
  let pb ← toBytesLE2Signed (ratTrunc (pitch_speed * 10))
  let rb ← toBytesLE2Signed (ratTrunc (roll_speed * 10))
  let yb ← toBytesLE2Signed (ratTrunc (yaw_speed * 10))
  return [0xFA, 0x0F] ++ pb ++ rb ++ yb

/-- `Storm32Controller._build_status_request`. -/
def build_status_request : List ℕ := [0xFA, 0x10]

/-- `Storm32Controller._parse_status_response`: the placeholder decoder,
which ignores the reply bytes and returns a fixed record. -/
def parse_status_response (_response : List ℕ) : StatusReport :=
  { connected := true, pitch := 0, roll := 0, yaw := 0, voltage := 12, status := "OK" }

/-- `Storm32Controller.set_angle`: fail when disconnected; otherwise
clamp each axis, encode, and write the frame.  An encoding failure is
caught and reported as `false` with nothing written. -/
def set_angle (s : Storm32State) (pitch roll yaw : ℚ) : Bool × Storm32State :=
  if !s.connected then (false, s)
  else
    let pitch := max (-90) (min 90 pitch)
    let roll := max (-90) (min 90 roll)
    let yaw := max (-180) (min 180 yaw)
    match build_angle_command pitch roll yaw with
    | none => (false, s)
    | some command => (true, { s with written := s.written ++ [command] })

/-- `Storm32Controller.set_speed`: fail when disconnected; otherwise
encode (no clamping) and write.  An `OverflowError` inside the encoder
is caught and reported as `false` with nothing written. -/
def set_speed (s : Storm32State) (pitch_speed roll_speed yaw_speed : ℚ) :
    Bool × Storm32State :=
  if !s.connected then (false, s)
  else
    match build_speed_command pitch_speed roll_speed yaw_speed with
    | none => (false, s)
    | some command => (true, { s with written := s.written ++ [command] })

/-- `Storm32Controller.get_status`: fail when disconnected; otherwise
write the status request and decode whatever reply bytes are available.
`reply = none` models an empty receive buffer (`in_waiting == 0`). -/
def get_status (s : Storm32State) (reply : Option (List ℕ)) :
    Option StatusReport × Storm32State :=
  if !s.connected then (none, s)
  else
    let s1 := { s with written := s.written ++ [build_status_request] }
    match reply with
    | none => (none, s1)
    | some response => (some (parse_status_response response), s1)

/-- `Storm32Controller.center`: delegate to `set_angle(0, 0, 0)`. -/
def center (s : Storm32State) : Bool × Storm32State :=
  set_angle s 0 0 0

end Cymbal.Storm32

namespace Cymbal.Spotlight

/-- `SpotlightController.SERVO_MIN_PULSE` (µs). -/
def SERVO_MIN_PULSE : ℤ := 1000

/-- `SpotlightController.SERVO_MAX_PULSE` (µs). -/
def SERVO_MAX_PULSE : ℤ := 2000

/-- `SpotlightController.SERVO_CENTER_PULSE` (µs). -/
def SERVO_CENTER_PULSE : ℤ := 1500

/-- State of the spotlight controller: the initialization and
stabilization flags and the fields `target_pitch`, `target_yaw`,
`pitch_pwm`, `yaw_pwm`. -/
structure SpotlightState where
  initialized : Bool
  use_stabilization : Bool
  target_pitch : ℚ
  target_yaw : ℚ
  pitch_pwm : ℤ
  yaw_pwm : ℤ
deriving DecidableEq

/-- `SpotlightController._angle_to_pulse`: normalize the angle over
`[min_angle, max_angle]` and map linearly onto the pulse range, with
Python's `int()` truncation. -/
def angle_to_pulse (angle min_angle max_angle : ℚ) : ℤ :=
  SERVO_MIN_PULSE +
    ratTrunc ((angle - min_angle) / (max_angle - min_angle) *
      ((SERVO_MAX_PULSE : ℚ) - (SERVO_MIN_PULSE : ℚ)))

/-- `SpotlightController.set_position`: fail if not initialized;
otherwise clamp both axes, store them as the new targets, convert them
to pulse widths and write both pulses.  Result: (returned bool, new
state, pulses written to the PWM channels in order). -/
def set_position (s : SpotlightState) (pitch yaw : ℚ) :
    Bool × SpotlightState × List ℤ :=
  if !s.initialized then (false, s, [])
  else
    let pitch := max (-90) (min 90 pitch)
    let yaw := max (-180) (min 180 yaw)
    let pitch_pwm := angle_to_pulse pitch (-90) 90
    let yaw_pwm := angle_to_pulse yaw (-180) 180
    (true,
     { s with target_pitch := pitch, target_yaw := yaw,
              pitch_pwm := pitch_pwm, yaw_pwm := yaw_pwm },
     [pitch_pwm, yaw_pwm])

/-- `SpotlightController.set_speed`: fail if not initialized; otherwise
clamp both speeds to `[-100, 100]`, convert each to
`SERVO_CENTER_PULSE + int(speed * 5)` and write both pulses.  The
`target_*` and `*_pwm` fields are not touched. -/
def set_speed (s : SpotlightState) (pitch_speed yaw_speed : ℚ) :
    Bool × SpotlightState × List ℤ :=
  if !s.initialized then (false, s, [])
  else
    let pitch_speed := max (-100) (min 100 pitch_speed)
    let yaw_speed := max (-100) (min 100 yaw_speed)
    let pitch_pulse := SERVO_CENTER_PULSE + ratTrunc (pitch_speed * 5)
    let yaw_pulse := SERVO_CENTER_PULSE + ratTrunc (yaw_speed * 5)
    (true, s, [pitch_pulse, yaw_pulse])

/-- `SpotlightController.stop`: delegate to `set_speed(0, 0)`. -/
def stop (s : SpotlightState) : Bool × SpotlightState × List ℤ :=
  set_speed s 0 0

/-- `SpotlightController.center`: delegate to `set_position(0, 0)`. -/
def center (s : SpotlightState) : Bool × SpotlightState × List ℤ :=
  set_position s 0 0

/-- `SpotlightController.stabilize`: fail if stabilization is disabled
or the orientation sample is unavailable; otherwise compute the
proportional corrections (gain 0.5), add them to the stored targets and
issue the corrected pose through `set_position`.  The orientation sample
returned by `get_orientation()` is passed as a parameter. -/
def stabilize (s : SpotlightState) (orientation : Option (ℚ × ℚ)) :
    Bool × SpotlightState × List ℤ :=
  if !s.use_stabilization then (false, s, [])
  else
    match orientation with
    | none => (false, s, [])
    | some (pitch, roll) =>
      let correction_pitch := -pitch * (1 / 2)
      let correction_yaw := -roll * (1 / 2)
      let stabilized_pitch := s.target_pitch + correction_pitch
      let stabilized_yaw := s.target_yaw + correction_yaw
      set_position s stabilized_pitch stabilized_yaw

/-- `SpotlightController.close`: if the GPIO handle exists, write the
disable sentinel `0` to both PWM channels.  Returns the pulses written. -/
def close (s : SpotlightState) : List ℤ :=
  if s.initialized then [0, 0] else []

/-- One caller-visible spotlight operation (the operations named by the
specification's §4.3–§4.4 surface). -/
inductive SpotOp where
  | position (pitch yaw : ℚ)
  | speed (pitch_speed yaw_speed : ℚ)
  | stop
  | center
  | stabilize (orientation : Option (ℚ × ℚ))

/-- Run one spotlight operation. -/
def runOp (s : SpotlightState) : SpotOp → Bool × SpotlightState × List ℤ
  | .position p y => set_position s p y
  | .speed p y => set_speed s p y
  | .stop => stop s
  | .center => center s
  | .stabilize o => stabilize s o

/-- Run a sequence of spotlight operations, accumulating every pulse
width written to the PWM channels. -/
def runOps (s : SpotlightState) : List SpotOp → SpotlightState × List ℤ
  | [] => (s, [])
  | op :: rest =>
    let r := runOp s op
    let rr := runOps r.2.1 rest
    (rr.1, r.2.2 ++ rr.2)

/-- A convenient initialized state: stabilization on, targets at 0,
both PWM fields at center. -/
def spot0 : SpotlightState :=
  { initialized := true, use_stabilization := true,
    target_pitch := 0, target_yaw := 0,
    pitch_pwm := 1500, yaw_pwm := 1500 }

/-- The speed-to-pulse mapping exactly as §4.3 of the specification
words it: `center_pulse_us + round(speed_percent * 5)`, clamped to
`[min_pulse_us, max_pulse_us]`.  This follows the specification's words
(with mathematical rounding), to be compared against the pulse the
source code actually produces in `set_speed`. -/
def speed_to_pulse_spec (speed_percent : ℚ) : ℤ :=
  max SERVO_MIN_PULSE
    (min SERVO_MAX_PULSE (SERVO_CENTER_PULSE + round (speed_percent * 5)))

end Cymbal.Spotlight

namespace Cymbal

open Cymbal.Spotlight Cymbal.Storm32

/-- Clamping to `[lo, hi]` is idempotent. -/
theorem clamp_clamp (lo hi x : ℚ) (h : lo ≤ hi) :
    max lo (min hi (max lo (min hi x))) = max lo (min hi x) := by
  have h1 : max lo (min hi x) ≤ hi := max_le h (min_le_left _ _)
  rw [min_eq_right h1, max_eq_right (le_max_left _ _)]

/-- Outside the signed 16-bit range the encoder raises (models the
`OverflowError` of `int.to_bytes`). -/
theorem toBytesLE2Signed_eq_none {n : ℤ} (h : n < -32768 ∨ 32767 < n) :
    toBytesLE2Signed n = none := by
  unfold toBytesLE2Signed
  rw [if_neg (by omega)]

/-- The linear angle-to-pulse map stays inside the pulse range whenever
the angle is inside `[min_angle, max_angle]`. -/
theorem angle_to_pulse_bounds (angle min_angle max_angle : ℚ)
    (hlt : min_angle < max_angle) (h1 : min_angle ≤ angle) (h2 : angle ≤ max_angle) :
    1000 ≤ Spotlight.angle_to_pulse angle min_angle max_angle ∧
      Spotlight.angle_to_pulse angle min_angle max_angle ≤ 2000 := by
  have hpos : 0 < max_angle - min_angle := by linarith
  have hn0 : 0 ≤ (angle - min_angle) / (max_angle - min_angle) :=
    div_nonneg (by linarith) hpos.le
  have hn1 : (angle - min_angle) / (max_angle - min_angle) ≤ 1 := by
    rw [div_le_one hpos]; linarith
  unfold Spotlight.angle_to_pulse SERVO_MIN_PULSE SERVO_MAX_PULSE
  have hlow : (0 : ℤ) ≤
      ratTrunc ((angle - min_angle) / (max_angle - min_angle) *
        (((2000 : ℤ) : ℚ) - ((1000 : ℤ) : ℚ))) := by
    refine le_ratTrunc_of_le ?_
    push_cast
    nlinarith
  have hhigh : ratTrunc ((angle - min_angle) / (max_angle - min_angle) *
      (((2000 : ℤ) : ℚ) - ((1000 : ℤ) : ℚ))) ≤ (1000 : ℤ) := by
    refine ratTrunc_le_of_le ?_
    push_cast
    nlinarith
  omega

/-- Pulses written by `set_position` stay in the pulse range. -/
theorem set_position_writes_bounded (s : SpotlightState) (pitch yaw : ℚ) (q : ℤ)
    (hq : q ∈ (Spotlight.set_position s pitch yaw).2.2) : 1000 ≤ q ∧ q ≤ 2000 := by
  unfold Spotlight.set_position at hq
  by_cases hi : s.initialized
  · simp only [hi, Bool.not_true, Bool.false_eq_true, if_false, List.mem_cons,
      List.mem_singleton, List.not_mem_nil, or_false] at hq
    rcases hq with h | h <;> subst h
    · exact angle_to_pulse_bounds _ _ _ (by norm_num) (le_max_left _ _)
        (max_le (by norm_num) (min_le_left _ _))
    · exact angle_to_pulse_bounds _ _ _ (by norm_num) (le_max_left _ _)
        (max_le (by norm_num) (min_le_left _ _))
  · simp [hi] at hq

/-- Pulses computed from a clamped speed stay in the pulse range. -/
theorem speed_pulse_bounds (x : ℚ) :
    1000 ≤ SERVO_CENTER_PULSE + ratTrunc (max (-100) (min 100 x) * 5) ∧
      SERVO_CENTER_PULSE + ratTrunc (max (-100) (min 100 x) * 5) ≤ 2000 := by
  have hlo : (-100 : ℚ) ≤ max (-100) (min 100 x) := le_max_left _ _
  have hhi : max (-100) (min 100 x) ≤ 100 := max_le (by norm_num) (min_le_left _ _)
  have h1 : ((-500 : ℤ) : ℚ) ≤ max (-100) (min 100 x) * 5 := by push_cast; linarith
  have h2 : max (-100) (min 100 x) * 5 ≤ ((500 : ℤ) : ℚ) := by push_cast; linarith
  have hb1 := le_ratTrunc_of_le h1
  have hb2 := ratTrunc_le_of_le h2
  unfold SERVO_CENTER_PULSE
  omega

/-- Pulses written by `set_speed` stay in the pulse range. -/
theorem set_speed_writes_bounded (s : SpotlightState) (ps ys : ℚ) (q : ℤ)
    (hq : q ∈ (Spotlight.set_speed s ps ys).2.2) : 1000 ≤ q ∧ q ≤ 2000 := by
  unfold Spotlight.set_speed at hq
  by_cases hi : s.initialized
  · simp only [hi, Bool.not_true, Bool.false_eq_true, if_false, List.mem_cons,
      List.mem_singleton, List.not_mem_nil, or_false] at hq
    rcases hq with h | h <;> subst h
    · exact speed_pulse_bounds ps
    · exact speed_pulse_bounds ys
  · simp [hi] at hq

/-- Pulses written by any single spotlight operation stay in the pulse
range. -/
theorem runOp_writes_bounded (s : SpotlightState) (op : SpotOp) (q : ℤ)
    (hq : q ∈ (Spotlight.runOp s op).2.2) : 1000 ≤ q ∧ q ≤ 2000 := by
  cases op with
  | position p y => exact set_position_writes_bounded s p y q hq
  | speed p y => exact set_speed_writes_bounded s p y q hq
  | stop => exact set_speed_writes_bounded s 0 0 q hq
  | center => exact set_position_writes_bounded s 0 0 q hq
  | stabilize o =>
    unfold Spotlight.runOp Spotlight.stabilize at hq
    by_cases hs : s.use_stabilization
    · cases o with
      | none => simp [hs] at hq
      | some pr =>
        obtain ⟨p, r⟩ := pr
        simp only [hs, Bool.not_true, Bool.false_eq_true, if_false] at hq
        exact set_position_writes_bounded _ _ _ q hq
    · simp [hs] at hq

/-- Truncation toward zero is the identity on integers. -/
theorem ratTrunc_intCast (n : ℤ) : ratTrunc ((n : ℤ) : ℚ) = n := by
  unfold ratTrunc
  split
  · exact Int.floor_intCast n
  · exact Int.ceil_intCast n

/-- The clamp-the-speed-first pulse of the source code agrees with the
clamp-the-pulse-afterwards formulation, for the truncating conversion. -/
theorem speed_clamp_pulse (x : ℚ) :
    SERVO_CENTER_PULSE + ratTrunc (max (-100) (min 100 x) * 5) =
      max SERVO_MIN_PULSE
        (min SERVO_MAX_PULSE (SERVO_CENTER_PULSE + ratTrunc (x * 5))) := by
  unfold SERVO_CENTER_PULSE SERVO_MIN_PULSE SERVO_MAX_PULSE
  rcases le_total x (-100) with hx | hx
  · rw [min_eq_right (hx.trans (by norm_num)), max_eq_left hx]
    have ht : ratTrunc (x * 5) ≤ (-500 : ℤ) := ratTrunc_le_of_le (by push_cast; linarith)
    have hv : ratTrunc ((-100 : ℚ) * 5) = (-500 : ℤ) := by
      rw [show ((-100 : ℚ) * 5) = (((-500 : ℤ) : ℤ) : ℚ) by norm_num, ratTrunc_intCast]
    rw [hv]
    omega
  · rcases le_total x 100 with hx2 | hx2
    · rw [min_eq_right hx2, max_eq_right hx]
      have hb1 : (-500 : ℤ) ≤ ratTrunc (x * 5) := le_ratTrunc_of_le (by push_cast; linarith)
      have hb2 : ratTrunc (x * 5) ≤ (500 : ℤ) := ratTrunc_le_of_le (by push_cast; linarith)
      omega
    · rw [min_eq_left hx2, max_eq_right (by norm_num : (-100 : ℚ) ≤ 100)]
      have ht : (500 : ℤ) ≤ ratTrunc (x * 5) := le_ratTrunc_of_le (by push_cast; linarith)
      have hv : ratTrunc ((100 : ℚ) * 5) = (500 : ℤ) := by
        rw [show ((100 : ℚ) * 5) = (((500 : ℤ) : ℤ) : ℚ) by norm_num, ratTrunc_intCast]
      rw [hv]
      omega

/-- C1: the code violates this claim.  Starting from caller-set targets
`(0, 0)` (state `spot0`), one stabilization step with orientation sample
`(pitch = 10, roll = -4)` overwrites `target_pitch`/`target_yaw` with
the corrected pose `(-5, 2)` (because `stabilize` issues the corrected
pose through `set_position`, which stores its argument as the new
target), and a second step with the same sample then corrects from the
previous step's corrected output, reaching `target_pitch = -10`. -/
theorem stabilize_overwrites_target :
    ((Spotlight.stabilize spot0 (some (10, -4))).2.1.target_pitch = -5 ∧
      (Spotlight.stabilize spot0 (some (10, -4))).2.1.target_yaw = 2) ∧
    (Spotlight.stabilize ((Spotlight.stabilize spot0 (some (10, -4))).2.1)
        (some (10, -4))).2.1.target_pitch = -10 := by
  norm_num [Spotlight.stabilize, Spotlight.set_position, spot0, min_def, max_def]

/-- C2: the code violates this claim.  With a connected driver and the
malformed single-byte reply `[0x00]` (shorter than any fixed-shape
status record), `get_status` does not yield a decode failure: the
placeholder `parse_status_response` ignores the bytes and fabricates the
fixed record `{connected := true, pitch := 0, roll := 0, yaw := 0,
voltage := 12, status := "OK"}`. -/
theorem get_status_fabricates_record :
    (Storm32.get_status { connected := true, written := [] } (some [0x00])).1 =
      some { connected := true, pitch := 0, roll := 0, yaw := 0,
             voltage := 12, status := "OK" } ∧
    (Storm32.get_status { connected := true, written := [] } (some [0x00])).1 ≠
      none := by
  constructor
  · rfl
  · simp [Storm32.get_status, Storm32.parse_status_response]

/-- C5: `set_angle` clamps pitch and roll to `[-90, 90]` and yaw to
`[-180, 180]` before encoding, so the written frame always carries the
clamped values; in particular `set_angle(120, -150, 200)` behaves
identically to `set_angle(90, -90, 180)` in every driver state. -/
theorem set_angle_clamps_before_encoding :
    (∀ (s : Storm32State) (pitch roll yaw : ℚ),
        Storm32.set_angle s pitch roll yaw =
          Storm32.set_angle s (max (-90) (min 90 pitch)) (max (-90) (min 90 roll))
            (max (-180) (min 180 yaw))) ∧
    (∀ s : Storm32State,
        Storm32.set_angle s 120 (-150) 200 = Storm32.set_angle s 90 (-90) 180) := by
  constructor
  · intro s p r y
    simp only [Storm32.set_angle]
    rw [clamp_clamp _ _ _ (by norm_num : (-90 : ℚ) ≤ 90),
      clamp_clamp _ _ _ (by norm_num : (-90 : ℚ) ≤ 90),
      clamp_clamp _ _ _ (by norm_num : (-180 : ℚ) ≤ 180)]
  · intro s
    simp only [Storm32.set_angle]
    norm_num [min_def, max_def]

/-- C6: in a disconnected driver state every motion/status operation
fails (`false` / `none`), writes nothing to the transport and leaves the
whole driver state unchanged. -/
theorem disconnected_ops_are_noops (s : Storm32State) (h : s.connected = false) :
    (∀ pitch roll yaw : ℚ, Storm32.set_angle s pitch roll yaw = (false, s)) ∧
    (∀ ps rs ys : ℚ, Storm32.set_speed s ps rs ys = (false, s)) ∧
    (∀ reply : Option (List ℕ), Storm32.get_status s reply = (none, s)) ∧
    Storm32.center s = (false, s) := by
  refine ⟨fun p r y => ?_, fun ps rs ys => ?_, fun reply => ?_, ?_⟩ <;>
    simp [Storm32.set_angle, Storm32.set_speed, Storm32.get_status, Storm32.center, h]

/-- Witness for C6 at the concrete disconnected state. -/
theorem disconnected_ops_are_noops_witness :
    Storm32.set_angle { connected := false, written := [] } 10 20 30 =
      (false, { connected := false, written := [] }) :=
  (disconnected_ops_are_noops { connected := false, written := [] } rfl).1 10 20 30

/-- C8: a stabilization step with a successful orientation sample
`(pitch, roll)` issues through the position path exactly
`target_pitch + (-pitch * 0.5)` and `target_yaw + (-roll * 0.5)`; in
particular with sample `(10, -4)` and targets `(0, 0)` it commands pitch
`-5` and yaw `2`. -/
theorem stabilize_commands_proportional_correction (s : SpotlightState)
    (pitch roll : ℚ) (h : s.use_stabilization = true) :
    Spotlight.stabilize s (some (pitch, roll)) =
      Spotlight.set_position s (s.target_pitch + -pitch * (1 / 2))
        (s.target_yaw + -roll * (1 / 2)) ∧
    Spotlight.stabilize spot0 (some (10, -4)) = Spotlight.set_position spot0 (-5) 2 := by
  constructor
  · simp [Spotlight.stabilize, h]
  · norm_num [Spotlight.stabilize, spot0]

/-- Witness for C8 with sample `(10, -4)` and targets `(0, 0)`. -/
theorem stabilize_commands_proportional_correction_witness :
    Spotlight.stabilize spot0 (some (10, -4)) = Spotlight.set_position spot0 (-5) 2 :=
  (stabilize_commands_proportional_correction spot0 10 (-4) rfl).2

/-- Ceiling of the literal `-500` (helper for concrete evaluations). -/
theorem ceil_neg_five_hundred : ⌈(-500 : ℚ)⌉ = -500 := by
  rw [show (-500 : ℚ) = ((-500 : ℤ) : ℚ) by norm_num]
  exact Int.ceil_intCast _

/-- C3 counterexample: at `speed_percent = 3/4` the code writes the
pulse `1500 + int(0.75 * 5) = 1503`, while the claimed formula
`center + round(speed * 5)` clamped gives `1504`; the claim as stated is
false. -/
theorem set_speed_round_formula_counterexample :
    (Spotlight.set_speed spot0 (3 / 4) 0).2.2.head? = some 1503 ∧
    Spotlight.speed_to_pulse_spec (3 / 4) = 1504 ∧
    (Spotlight.set_speed spot0 (3 / 4) 0).2.2.head? ≠
      some (Spotlight.speed_to_pulse_spec (3 / 4)) := by
  have h1 : (Spotlight.set_speed spot0 (3 / 4) 0).2.2.head? = some 1503 := by
    norm_num [Spotlight.set_speed, spot0, ratTrunc, min_def, max_def,
      SERVO_CENTER_PULSE]
  have h2 : Spotlight.speed_to_pulse_spec (3 / 4) = 1504 := by
    norm_num [Spotlight.speed_to_pulse_spec, round_eq, min_def, max_def,
      SERVO_MIN_PULSE, SERVO_MAX_PULSE, SERVO_CENTER_PULSE]
  refine ⟨h1, h2, ?_⟩
  rw [h1, h2]
  decide

/-- C3 (amended): for every speed the pulse written equals
`center_pulse_us + trunc(speed_percent * 5)` clamped to
`[min_pulse_us, max_pulse_us]` (truncation toward zero, not rounding);
speed `0` maps to exactly `1500`, `100` to `2000`, `-100` to `1000`,
and speeds beyond `±100` clamp to the endpoint pulses. -/
theorem set_speed_truncated_pulse (s : SpotlightState) (ps ys : ℚ)
    (h : s.initialized = true) :
    (Spotlight.set_speed s ps ys).2.2 =
      [max SERVO_MIN_PULSE
         (min SERVO_MAX_PULSE (SERVO_CENTER_PULSE + ratTrunc (ps * 5))),
       max SERVO_MIN_PULSE
         (min SERVO_MAX_PULSE (SERVO_CENTER_PULSE + ratTrunc (ys * 5)))] ∧
    (Spotlight.set_speed s 0 0).2.2 = [1500, 1500] ∧
    (Spotlight.set_speed s 100 100).2.2 = [2000, 2000] ∧
    (Spotlight.set_speed s (-100) (-100)).2.2 = [1000, 1000] ∧
    (Spotlight.set_speed s 250 (-250)).2.2 = [2000, 1000] := by
  refine ⟨?_, ?_, ?_, ?_, ?_⟩
  · simp only [Spotlight.set_speed, h, Bool.not_true, Bool.false_eq_true, if_false]
    rw [speed_clamp_pulse, speed_clamp_pulse]
  · norm_num [Spotlight.set_speed, h, ratTrunc, min_def, max_def, SERVO_CENTER_PULSE]
  · norm_num [Spotlight.set_speed, h, ratTrunc, min_def, max_def, SERVO_CENTER_PULSE]
  · norm_num [Spotlight.set_speed, h, ratTrunc, min_def, max_def, SERVO_CENTER_PULSE,
      ceil_neg_five_hundred]
  · norm_num [Spotlight.set_speed, h, ratTrunc, min_def, max_def, SERVO_CENTER_PULSE,
      ceil_neg_five_hundred]

/-- Witness for C3 (amended) at `speed_percent = 3/4` on `spot0`. -/
theorem set_speed_truncated_pulse_witness :
    (Spotlight.set_speed spot0 (3 / 4) 0).2.2 =
      [max SERVO_MIN_PULSE
         (min SERVO_MAX_PULSE (SERVO_CENTER_PULSE + ratTrunc ((3 / 4) * 5))),
       max SERVO_MIN_PULSE
         (min SERVO_MAX_PULSE (SERVO_CENTER_PULSE + ratTrunc ((0 : ℚ) * 5)))] :=
  (set_speed_truncated_pulse spot0 (3 / 4) 0 rfl).1

/-- C4: for every in-range pose the encoder produces the header
`0xFA 0x0E` followed by three little-endian signed 16-bit fields, each
holding the corresponding angle scaled by 100 and truncated toward
zero, and decoding a field recovers that scaled integer exactly. -/
theorem build_angle_command_wire_format (pitch roll yaw : ℚ)
    (hp1 : -90 ≤ pitch) (hp2 : pitch ≤ 90) (hr1 : -90 ≤ roll) (hr2 : roll ≤ 90)
    (hy1 : -180 ≤ yaw) (hy2 : yaw ≤ 180) :
    ∃ b1 b2 b3 b4 b5 b6 : ℕ,
      Storm32.build_angle_command pitch roll yaw =
        some [0xFA, 0x0E, b1, b2, b3, b4, b5, b6] ∧
      decodeInt16LE b1 b2 = ratTrunc (pitch * 100) ∧
      decodeInt16LE b3 b4 = ratTrunc (roll * 100) ∧
      decodeInt16LE b5 b6 = ratTrunc (yaw * 100) := by
  have hpl : (-32768 : ℤ) ≤ ratTrunc (pitch * 100) := by
    have := le_ratTrunc_of_le (n := -9000) (x := pitch * 100) (by push_cast; linarith)
    omega
  have hpu : ratTrunc (pitch * 100) < 32768 := by
    have := ratTrunc_le_of_le (n := 9000) (x := pitch * 100) (by push_cast; linarith)
    omega
  have hrl : (-32768 : ℤ) ≤ ratTrunc (roll * 100) := by
    have := le_ratTrunc_of_le (n := -9000) (x := roll * 100) (by push_cast; linarith)
    omega
  have hru : ratTrunc (roll * 100) < 32768 := by
    have := ratTrunc_le_of_le (n := 9000) (x := roll * 100) (by push_cast; linarith)
    omega
  have hyl : (-32768 : ℤ) ≤ ratTrunc (yaw * 100) := by
    have := le_ratTrunc_of_le (n := -18000) (x := yaw * 100) (by push_cast; linarith)
    omega
  have hyu : ratTrunc (yaw * 100) < 32768 := by
    have := ratTrunc_le_of_le (n := 18000) (x := yaw * 100) (by push_cast; linarith)
    omega
  obtain ⟨lo1, hi1, hb1, hd1⟩ := toBytesLE2Signed_decode _ hpl hpu
  obtain ⟨lo2, hi2, hb2, hd2⟩ := toBytesLE2Signed_decode _ hrl hru
  obtain ⟨lo3, hi3, hb3, hd3⟩ := toBytesLE2Signed_decode _ hyl hyu
  refine ⟨lo1, hi1, lo2, hi2, lo3, hi3, ?_, hd1, hd2, hd3⟩
  simp [Storm32.build_angle_command, hb1, hb2, hb3]

/-- Witness for C4: encoding `pitch = 12.34` yields a frame whose pitch
field decodes to the integer `1234`, i.e. 0.01° resolution is kept. -/
theorem build_angle_command_wire_format_witness :
    ∃ b1 b2 b3 b4 b5 b6 : ℕ,
      Storm32.build_angle_command (1234 / 100) 0 0 =
        some [0xFA, 0x0E, b1, b2, b3, b4, b5, b6] ∧
      decodeInt16LE b1 b2 = 1234 := by
  obtain ⟨b1, b2, b3, b4, b5, b6, hb, hd, -, -⟩ :=
    build_angle_command_wire_format (1234 / 100) 0 0 (by norm_num) (by norm_num)
      (by norm_num) (by norm_num) (by norm_num) (by norm_num)
  refine ⟨b1, b2, b3, b4, b5, b6, hb, ?_⟩
  rw [hd]
  norm_num [ratTrunc]

/-- C7: over any sequence of spotlight operations (position, speed,
stop, center, stabilize) from any state, every pulse width written to a
PWM channel lies in `[1000, 2000]`; the disable sentinel `0` is written
only by the shutdown path `close`. -/
theorem spotlight_pulses_bounded :
    (∀ (s : SpotlightState) (ops : List SpotOp) (q : ℤ),
        q ∈ (Spotlight.runOps s ops).2 → 1000 ≤ q ∧ q ≤ 2000) ∧
    (∀ s : SpotlightState,
        Spotlight.close s = if s.initialized then [0, 0] else []) := by
  constructor
  · intro s ops
    induction ops generalizing s with
    | nil => intro q hq; simp [Spotlight.runOps] at hq
    | cons op rest ih =>
      intro q hq
      simp only [Spotlight.runOps, List.mem_append] at hq
      rcases hq with hq | hq
      · exact runOp_writes_bounded s op q hq
      · exact ih _ q hq
  · intro s
    rfl

/-- Witness for C7: the pulse 1472 written by `set_position(-5, 2)` on
`spot0` is within bounds. -/
theorem spotlight_pulses_bounded_witness : (1000 : ℤ) ≤ 1472 ∧ (1472 : ℤ) ≤ 2000 :=
  spotlight_pulses_bounded.1 spot0 [SpotOp.position (-5) 2] 1472 (by
    norm_num [Spotlight.runOps, Spotlight.runOp, Spotlight.set_position,
      Spotlight.angle_to_pulse, ratTrunc, spot0, min_def, max_def,
      SERVO_MIN_PULSE, SERVO_MAX_PULSE])

/-- C10: on a connected driver, if any axis speed scaled by 10 and
truncated lies outside the signed 16-bit range, `set_speed` catches the
encoder overflow, returns `false`, and writes nothing (the state,
including the transport log, is unchanged). -/
theorem set_speed_overflow_caught (s : Storm32State) (ps rs ys : ℚ)
    (hc : s.connected = true)
    (hout : ratTrunc (ps * 10) < -32768 ∨ 32767 < ratTrunc (ps * 10) ∨
            ratTrunc (rs * 10) < -32768 ∨ 32767 < ratTrunc (rs * 10) ∨
            ratTrunc (ys * 10) < -32768 ∨ 32767 < ratTrunc (ys * 10)) :
    Storm32.set_speed s ps rs ys = (false, s) := by
  have hnone : Storm32.build_speed_command ps rs ys = none := by
    unfold Storm32.build_speed_command
    rcases hout with h | h | h | h | h | h
    · simp [toBytesLE2Signed_eq_none (Or.inl h)]
    · simp [toBytesLE2Signed_eq_none (Or.inr h)]
    · cases hpb : toBytesLE2Signed (ratTrunc (ps * 10)) <;>
        simp [hpb, toBytesLE2Signed_eq_none (Or.inl h)]
    · cases hpb : toBytesLE2Signed (ratTrunc (ps * 10)) <;>
        simp [hpb, toBytesLE2Signed_eq_none (Or.inr h)]
    · cases hpb : toBytesLE2Signed (ratTrunc (ps * 10)) <;>
        cases hrb : toBytesLE2Signed (ratTrunc (rs * 10)) <;>
        simp [hpb, hrb, toBytesLE2Signed_eq_none (Or.inl h)]
    · cases hpb : toBytesLE2Signed (ratTrunc (ps * 10)) <;>
        cases hrb : toBytesLE2Signed (ratTrunc (rs * 10)) <;>
        simp [hpb, hrb, toBytesLE2Signed_eq_none (Or.inr h)]
  simp [Storm32.set_speed, hc, hnone]

/-- Witness for C10: `set_speed(10000, 0, 0)` overflows the pitch field
(`int(10000 * 10) = 100000 > 32767`) and fails without writing. -/
theorem set_speed_overflow_caught_witness :
    Storm32.set_speed { connected := true, written := [] } 10000 0 0 =
      (false, { connected := true, written := [] }) :=
  set_speed_overflow_caught { connected := true, written := [] } 10000 0 0 rfl
    (Or.inr (Or.inl (by norm_num [ratTrunc])))

/-- C9: `center()` is the same operation as `set_angle(0, 0, 0)` in
every driver state, and on a fresh connected driver it writes the
all-zero angle frame `FA 0E 00 00 00 00 00 00`. -/
theorem center_is_set_angle_zero :
    (∀ s : Storm32State, Storm32.center s = Storm32.set_angle s 0 0 0) ∧
    (Storm32.center { connected := true, written := [] }).2.written =
      [[0xFA, 0x0E, 0, 0, 0, 0, 0, 0]] := by
  constructor
  · intro s; rfl
  · norm_num [Storm32.center, Storm32.set_angle, Storm32.build_angle_command,
      toBytesLE2Signed, ratTrunc, min_def, max_def]

end Cymbal
